import Mathlib

/-!
Shallow embedding of src/ldm/modules/attention.py (the StyleID variant of
the Stable Diffusion attention module) and proofs about it.

Modelling conventions, used throughout:

* Torch tensors are embedded as functions from index types to ℚ: a tensor of
  shape [b, n, f] becomes `B → P → ι → ℚ` where `B`, `P`, `ι` are (finite)
  index types for batch, position and feature axes.
* The `inner_dim = heads * dim_head` feature axis is represented as the pair
  type `Fin h × Fin d`; `rearrange 'b n (h d) -> (b h) n d'` then becomes
  currying of that pair, and the folded batch-head axis is `B × Fin h`
  (batch major, head minor, exactly the layout the einops pattern produces).
* External numeric library primitives that are not rational (exp inside
  softmax, gelu, the reciprocal square roots inside the normalizers, the
  xformers fused attention kernel) are taken as explicit function
  parameters; every claim below is proved for all of them (or for all
  positive `E` where softmax positivity matters).
* `nn.Dropout` is the identity (inference/eval mode).
* `checkpoint(fn, args, params, flag)` (from ldm.modules.diffusionmodules.util,
  outside this file's scope) is semantically transparent; `forward` is
  therefore embedded as `_forward`.
-/

namespace StyleID

/-- injection_config dictionary read by CrossAttention.forward
(attention.py lines 181-183): key T is the attention-matrix scale and
gamma the query mixing weight. -/
structure InjectionConfig where
  T : ℚ
  gamma : ℚ

/-- attn_matrix_scale as initialized and overwritten in lines 178-182:
1.0 when injection_config is None, else injection_config['T']. -/
def cfgT : Option InjectionConfig → ℚ
  | none => 1
  | some c => c.T

/-- q_mix as initialized and overwritten in lines 179-183:
0 when injection_config is None, else injection_config['gamma']. -/
def cfgGamma : Option InjectionConfig → ℚ
  | none => 0
  | some c => c.gamma

/-- Learned parameters of CrossAttention (lines 145-161).  to_q, to_k, to_v
are bias-free linear maps (their inner_dim output axis is the pair
Fin h × Fin d, see the header); to_out is the linear map Wo with bias bo
followed by Dropout (identity in eval mode).  scale is the construction-time
constant dim_head ** -0.5 of line 151, kept as an abstract rational
parameter because the true value is irrational. -/
structure CAWeights (h d : ℕ) (ι κ : Type) where
  Wq : Fin h → Fin d → ι → ℚ
  Wk : Fin h → Fin d → κ → ℚ
  Wv : Fin h → Fin d → κ → ℚ
  Wo : ι → Fin h → Fin d → ℚ
  bo : ι → ℚ
  scale : ℚ

variable {h d : ℕ} {B P J ι κ : Type}

/-- Fresh query projection with head split: `q = self.to_q(x)` followed by
`rearrange(q, 'b n (h d) -> (b h) n d', h=h)` (lines 186-187 and 192-193). -/
def freshQ [Fintype ι] (W : CAWeights h d ι κ) (x : B → P → ι → ℚ) :
    B × Fin h → P → Fin d → ℚ :=
  fun bh p dd => ∑ j : ι, W.Wq bh.2 dd j * x bh.1 p j

/-- Fresh key projection with head split (lines 198-199). -/
def freshK [Fintype κ] (W : CAWeights h d ι κ) (c : B → J → κ → ℚ) :
    B × Fin h → J → Fin d → ℚ :=
  fun bh p dd => ∑ j : κ, W.Wk bh.2 dd j * c bh.1 p j

/-- Fresh value projection with head split (lines 205-206). -/
def freshV [Fintype κ] (W : CAWeights h d ι κ) (c : B → J → κ → ℚ) :
    B × Fin h → J → Fin d → ℚ :=
  fun bh p dd => ∑ j : κ, W.Wv bh.2 dd j * c bh.1 p j

/-- `torch.cat([t]*b, dim=0)` applied to an injected tensor whose leading
axis holds the `h` heads of a single reference sample (lines 190, 202, 209):
row (bi, hi) of the result is row hi of the injected tensor. -/
def replicateB (t : Fin h → P → Fin d → ℚ) : B × Fin h → P → Fin d → ℚ :=
  fun bh => t bh.2

/-- The query actually used for attention (lines 185-194): the fresh
projection when q_injected is None, otherwise
`q = q_in * q_mix + q_ * (1. - q_mix)` where q_in is the batch-replicated
injected query and q_mix comes from the injection config. -/
def ca_q [Fintype ι] (cfg : Option InjectionConfig)
    (qI : Option (Fin h → P → Fin d → ℚ))
    (W : CAWeights h d ι κ) (x : B → P → ι → ℚ) :
    B × Fin h → P → Fin d → ℚ :=
  match qI with
  | none => freshQ W x
  | some qi => fun bh p dd =>
      replicateB qi bh p dd * cfgGamma cfg
        + freshQ W x bh p dd * (1 - cfgGamma cfg)

/-- The key actually used (lines 197-202): injected keys entirely replace
the fresh projection, with no blending. -/
def ca_k [Fintype κ] (kI : Option (Fin h → J → Fin d → ℚ))
    (W : CAWeights h d ι κ) (c : B → J → κ → ℚ) :
    B × Fin h → J → Fin d → ℚ :=
  match kI with
  | none => freshK W c
  | some ki => replicateB ki

/-- The value actually used (lines 204-209): injected values entirely
replace the fresh projection, with no blending. -/
def ca_v [Fintype κ] (vI : Option (Fin h → J → Fin d → ℚ))
    (W : CAWeights h d ι κ) (c : B → J → κ → ℚ) :
    B × Fin h → J → Fin d → ℚ :=
  match vI with
  | none => freshV W c
  | some vi => replicateB vi

/-- Raw similarity `sim = einsum('b i d, b j d -> b i j', q, k)`
(lines 222-227; the fp32 upcast is a no-op over ℚ). -/
def simQK [Fintype (Fin d)] (q : B × Fin h → P → Fin d → ℚ)
    (k : B × Fin h → J → Fin d → ℚ) : B × Fin h → P → J → ℚ :=
  fun bh i j => ∑ dd : Fin d, q bh i dd * k bh j dd

/-- The similarity matrix after the two in-place scalings of lines 229-232:
`if q_injected is not None or k_injected is not None: sim *= attn_matrix_scale`
followed unconditionally by `sim *= self.scale`.  The v_injected argument is
accepted (forward receives it, line 173) but the line-229 condition does not
consult it. -/
def ca_sim [Fintype ι] [Fintype κ] (W : CAWeights h d ι κ)
    (cfg : Option InjectionConfig)
    (qI : Option (Fin h → P → Fin d → ℚ))
    (kI vI : Option (Fin h → J → Fin d → ℚ))
    (x : B → P → ι → ℚ) (c : B → J → κ → ℚ) : B × Fin h → P → J → ℚ :=
  let s := simQK (ca_q cfg qI W x) (ca_k kI W c)
  let s2 := if qI.isSome || kI.isSome
    then (fun bh i j => s bh i j * cfgT cfg) else s
  fun bh i j => s2 bh i j * W.scale

/-- Application of the boolean mask (lines 235-239): the mask is broadcast
over heads and query rows and the masked-out entries of sim are filled with
`-torch.finfo(sim.dtype).max`.  That fill value is the most negative
representable number of the dtype, whose exponential underflows to exactly 0
in the same dtype, so a filled entry is modelled as `none` and the softmax
exponential below maps `none` to 0. -/
def maskedSim (mask : Option (B → J → Bool))
    (s : B × Fin h → P → J → ℚ) : B × Fin h → P → J → Option ℚ :=
  match mask with
  | none => fun bh i j => some (s bh i j)
  | some m => fun bh i j => if m bh.1 j then some (s bh i j) else none

/-- Exponential extended to mask-filled entries: a filled entry (`none`)
has exponential 0 (underflow of exp of the most negative representable
value), an unfilled entry uses the library exponential E. -/
def expO (E : ℚ → ℚ) : Option ℚ → ℚ
  | none => 0
  | some a => E a

/-- One row of `sim.softmax(dim=-1)` (line 242), with the library
exponential E as a parameter: entry j is exp(row j) normalized by the row
sum of exponentials. -/
def softmaxRow [Fintype J] (E : ℚ → ℚ) (row : J → Option ℚ) : J → ℚ :=
  fun j => expO E (row j) / ∑ jj : J, expO E (row jj)

/-- The attention probability matrix `attn` of line 242 (also retained as
`self.attn`, line 243). -/
def ca_attn [Fintype ι] [Fintype κ] [Fintype J] (E : ℚ → ℚ)
    (W : CAWeights h d ι κ) (cfg : Option InjectionConfig)
    (qI : Option (Fin h → P → Fin d → ℚ))
    (kI vI : Option (Fin h → J → Fin d → ℚ))
    (mask : Option (B → J → Bool))
    (x : B → P → ι → ℚ) (c : B → J → κ → ℚ) : B × Fin h → P → J → ℚ :=
  fun bh i => softmaxRow E (fun j => maskedSim mask (ca_sim W cfg qI kI vI x c) bh i j)

/-- The output projection `self.to_out` applied after
`out = einsum('b i j, b j d -> b i d', attn, v)` and the head merge
`rearrange(out, '(b h) n d -> b n (h d)', h=h)` (lines 245-247); Dropout is
the identity in eval mode. -/
def to_out_app [Fintype (Fin h)] [Fintype (Fin d)] (W : CAWeights h d ι κ)
    (o : B × Fin h → P → Fin d → ℚ) : B → P → ι → ℚ :=
  fun b p oi => (∑ hh : Fin h, ∑ dd : Fin d, W.Wo oi hh dd * o (b, hh) p dd) + W.bo oi

/-- CrossAttention.forward (lines 170-247), with the context argument made
explicit (`context = default(context, x)` of line 196 is applied by the
caller) and the external exponential E as a parameter. -/
def ca_forward [Fintype ι] [Fintype κ] [Fintype J] (E : ℚ → ℚ)
    (W : CAWeights h d ι κ) (x : B → P → ι → ℚ) (c : B → J → κ → ℚ)
    (mask : Option (B → J → Bool))
    (qI : Option (Fin h → P → Fin d → ℚ))
    (kI vI : Option (Fin h → J → Fin d → ℚ))
    (cfg : Option InjectionConfig) : B → P → ι → ℚ :=
  to_out_app W (fun bh i dd =>
    ∑ j : J, ca_attn E W cfg qI kI vI mask x c bh i j * ca_v vI W c bh j dd)

/-- Error value standing for the NotImplementedError raised at line 358. -/
inductive AttnError where
  | notImplementedError : AttnError

/-- Learned parameters of MemoryEfficientCrossAttention (lines 319-336):
same projection layout as CAWeights but with no explicit scale field (the
scaling lives inside the fused xformers kernel). -/
structure MEAWeights (h d : ℕ) (ι κ : Type) where
  Wq : Fin h → Fin d → ι → ℚ
  Wk : Fin h → Fin d → κ → ℚ
  Wv : Fin h → Fin d → κ → ℚ
  Wo : ι → Fin h → Fin d → ℚ
  bo : ι → ℚ

/-- MemoryEfficientCrossAttention.forward (lines 338-365) with the context
argument made explicit and the external fused kernel
`xformers.ops.memory_efficient_attention` passed as the parameter op.  The
reshape chain of lines 345-352 produces the same (batch, head) split as the
einops rearrange and is embedded the same way.  Mirroring the source, the
kernel output is computed first (line 355) and the mask is checked
afterwards (lines 357-358): a present mask raises NotImplementedError. -/
def mea_forward [Fintype ι] [Fintype κ]
    (op : (B × Fin h → P → Fin d → ℚ) → (B × Fin h → J → Fin d → ℚ)
      → (B × Fin h → J → Fin d → ℚ) → (B × Fin h → P → Fin d → ℚ))
    (W : MEAWeights h d ι κ) (x : B → P → ι → ℚ) (c : B → J → κ → ℚ)
    (mask : Option (B → J → Bool)) : Except AttnError (B → P → ι → ℚ) :=
  let q := fun (bh : B × Fin h) p dd => ∑ j : ι, W.Wq bh.2 dd j * x bh.1 p j
  let k := fun (bh : B × Fin h) p dd => ∑ j : κ, W.Wk bh.2 dd j * c bh.1 p j
  let v := fun (bh : B × Fin h) p dd => ∑ j : κ, W.Wv bh.2 dd j * c bh.1 p j
  let o := op q k v
  match mask with
  | some _ => Except.error AttnError.notImplementedError
  | none => Except.ok (fun b p oi =>
      (∑ hh : Fin h, ∑ dd : Fin d, W.Wo oi hh dd * o (b, hh) p dd) + W.bo oi)

/-! Value-level embedding of BasicTransformerBlock and of SpatialTransformer
in its 1x1-convolution mode. -/

/-- nn.LayerNorm(dim) (lines 385-387) with learned affine parameters and
eps = 1e-5, the reciprocal square root taken as the parameter r. -/
def lnorm [Fintype ι] (r : ℚ → ℚ) (ga be : ι → ℚ) (t : ι → ℚ) : ι → ℚ :=
  let n : ℚ := (Fintype.card ι : ℚ)
  let mu := (∑ j : ι, t j) / n
  let v := (∑ j : ι, (t j - mu) ^ 2) / n
  fun j => (t j - mu) * r (v + 1 / 100000) * ga j + be j

/-- Learned parameters of FeedForward with glu=True (lines 49-76): the GEGLU
projection Linear(dim, inner*2) is split by chunk(2, dim=-1) into a value
half (W1, b1) and a gate half (W2, b2); the output Linear(inner, dim) is
(W3, b3); the Dropout between them is the identity in eval mode. -/
structure FFWeights (ι φ : Type) where
  W1 : φ → ι → ℚ
  b1 : φ → ℚ
  W2 : φ → ι → ℚ
  b2 : φ → ℚ
  W3 : ι → φ → ℚ
  b3 : ι → ℚ

/-- FeedForward.forward in the gated (GEGLU) configuration used by
BasicTransformerBlock (gated_ff=True): `x, gate = proj(x).chunk(2)` then
`x * gelu(gate)` (lines 54-56) followed by the output linear map, with the
library gelu as a parameter. -/
def ff_forward [Fintype ι] [Fintype φ] (gelu : ℚ → ℚ) (F : FFWeights ι φ)
    (t : ι → ℚ) : ι → ℚ :=
  let val := fun f => (∑ j : ι, F.W1 f j * t j) + F.b1 f
  let gate := fun f => (∑ j : ι, F.W2 f j * t j) + F.b2 f
  fun oi => (∑ f : φ, F.W3 oi f * (val f * gelu (gate f))) + F.b3 oi

/-- Learned parameters of BasicTransformerBlock (lines 373-388): two
CrossAttention sublayers (attn1 constructed over the block width, attn2 over
the block width and the effective context width, both embedded here at the
block width ι), the gated feed-forward, and the three LayerNorm affine
pairs. -/
structure BTBWeights (h d : ℕ) (ι φ : Type) where
  attn1 : CAWeights h d ι ι
  attn2 : CAWeights h d ι ι
  ff : FFWeights ι φ
  n1g : ι → ℚ
  n1b : ι → ℚ
  n2g : ι → ℚ
  n2b : ι → ℚ
  n3g : ι → ℚ
  n3b : ι → ℚ

/-- BasicTransformerBlock forward = _forward (lines 391-421; the checkpoint
wrapper is semantically transparent).  The active _forward of line 413 calls
attn1 with the injection arguments but WITHOUT any context, so attn1 always
attends over its own normalized input (`default(context, x)` at line 196);
the external context only reaches attn2 (line 419), which falls back to its
own input when the context is None.  The dsa argument mirrors
self.disable_self_attn (line 379), which the active _forward never reads. -/
def btb_forward [Fintype ι] [Fintype φ] [Fintype P] (E gelu r : ℚ → ℚ)
    (Wb : BTBWeights h d ι φ) (dsa : Bool) (x : B → P → ι → ℚ)
    (ctx : Option (B → P → ι → ℚ))
    (qI kI vI : Option (Fin h → P → Fin d → ℚ))
    (cfg : Option InjectionConfig) : B → P → ι → ℚ :=
  let n1 := fun bb pp => lnorm r Wb.n1g Wb.n1b (x bb pp)
  let x1 := fun bb pp jj =>
    ca_forward E Wb.attn1 n1 n1 none qI kI vI cfg bb pp jj + x bb pp jj
  let n2 := fun bb pp => lnorm r Wb.n2g Wb.n2b (x1 bb pp)
  let x2 := fun bb pp jj =>
    ca_forward E Wb.attn2 n2 (ctx.getD n2) none none none none none bb pp jj
      + x1 bb pp jj
  let n3 := fun bb pp => lnorm r Wb.n3g Wb.n3b (x2 bb pp)
  fun bb pp jj => ff_forward gelu Wb.ff (n3 bb pp) jj + x2 bb pp jj

/-- GroupNorm (Normalize, lines 88-89) with eps = 1e-6: the channel axis is
represented as the pair Fin g × Fin cpg (group, channel-within-group);
normalization statistics are taken per sample and group over the group's
channels and all spatial positions, the reciprocal square root is the
parameter r. -/
def gnorm {g cpg hh ww : ℕ} (r : ℚ → ℚ) (ga be : Fin g × Fin cpg → ℚ)
    (x : B → Fin g × Fin cpg → Fin hh → Fin ww → ℚ) :
    B → Fin g × Fin cpg → Fin hh → Fin ww → ℚ :=
  fun bb cc ii jj =>
    let n : ℚ := ((cpg * hh * ww : ℕ) : ℚ)
    let mu := (∑ ci : Fin cpg, ∑ i2 : Fin hh, ∑ j2 : Fin ww,
      x bb (cc.1, ci) i2 j2) / n
    let v := (∑ ci : Fin cpg, ∑ i2 : Fin hh, ∑ j2 : Fin ww,
      (x bb (cc.1, ci) i2 j2 - mu) ^ 2) / n
    (x bb cc ii jj - mu) * r (v + 1 / 1000000) * ga cc + be cc

/-- Learned parameters of SpatialTransformer in 1x1-convolution mode
(lines 442-474, use_linear=False): GroupNorm affine pair, proj_in
convolution (weight and bias), the stack of transformer blocks, and the
proj_out convolution, which zero_module wraps at construction. -/
structure STWeights (g cpg h d : ℕ) (φ : Type) where
  ng : Fin g × Fin cpg → ℚ
  nb : Fin g × Fin cpg → ℚ
  WpIn : Fin h × Fin d → Fin g × Fin cpg → ℚ
  bpIn : Fin h × Fin d → ℚ
  blocks : List (BTBWeights h d (Fin h × Fin d) φ)
  WpOut : Fin g × Fin cpg → Fin h × Fin d → ℚ
  bpOut : Fin g × Fin cpg → ℚ

/-- The token sequence entering the transformer blocks (lines 507-510,
conv mode): GroupNorm, then the 1x1 proj_in convolution, then
`rearrange(x, 'b c h w -> b (h w) c')` with the spatial position pair
(i, j) as the token index. -/
def stTokens {g cpg hh ww : ℕ} (r : ℚ → ℚ) (S : STWeights g cpg h d φ)
    (x : B → Fin g × Fin cpg → Fin hh → Fin ww → ℚ) :
    B → Fin hh × Fin ww → Fin h × Fin d → ℚ :=
  fun bb p o =>
    (∑ cc : Fin g × Fin cpg, S.WpIn o cc * gnorm r S.ng S.nb x bb cc p.1 p.2)
      + S.bpIn o

/-- The per-block loop of lines 513-520: iteration i runs block i on the
running sequence with context `context[i]`; a Python list index beyond the
end of the wrapped context list (IndexError) is the none outcome. -/
def stLoop {hh ww : ℕ} [Fintype φ] (E gelu r : ℚ → ℚ) (dsa : Bool)
    (qI kI vI : Option (Fin h → Fin hh × Fin ww → Fin d → ℚ))
    (cfg : Option InjectionConfig)
    (ctxs : List (Option (B → Fin hh × Fin ww → Fin h × Fin d → ℚ))) :
    ℕ → List (BTBWeights h d (Fin h × Fin d) φ)
      → (B → Fin hh × Fin ww → Fin h × Fin d → ℚ)
      → Option (B → Fin hh × Fin ww → Fin h × Fin d → ℚ)
  | _, [], t => some t
  | i, blk :: rest, t =>
    match ctxs[i]? with
    | none => none
    | some co =>
      stLoop E gelu r dsa qI kI vI cfg ctxs (i + 1) rest
        (btb_forward E gelu r blk dsa t co qI kI vI cfg)

/-- SpatialTransformer.forward (lines 498-526) in 1x1-convolution mode:
tokens through the block loop, `rearrange 'b (h w) c -> b c h w'`, the
proj_out convolution, and the global residual `x + x_in`.  The wrapped
context list is passed explicitly (the use_linear=True path cannot be typed
at the value level because of the proj_out dimension swap of line 473; it is
covered by the shape-level model below). -/
def stConvForward {g cpg hh ww : ℕ} [Fintype φ] (E gelu r : ℚ → ℚ)
    (S : STWeights g cpg h d φ) (dsa : Bool)
    (qI kI vI : Option (Fin h → Fin hh × Fin ww → Fin d → ℚ))
    (cfg : Option InjectionConfig)
    (ctxs : List (Option (B → Fin hh × Fin ww → Fin h × Fin d → ℚ)))
    (x : B → Fin g × Fin cpg → Fin hh → Fin ww → ℚ) :
    Option (B → Fin g × Fin cpg → Fin hh → Fin ww → ℚ) :=
  match stLoop E gelu r dsa qI kI vI cfg ctxs 0 S.blocks (stTokens r S x) with
  | none => none
  | some t2 =>
    some (fun bb cc ii jj =>
      ((∑ o : Fin h × Fin d, S.WpOut cc o * t2 bb (ii, jj) o) + S.bpOut cc)
        + x bb cc ii jj)

/-! Shape-level embedding of SpatialTransformer.forward, for the claims that
concern shape errors and the per-block context indexing.  A tensor shape is
its list of dimensions; none is a raised error (shape mismatch or
IndexError). -/

/-- Tensor shape: the list of dimension sizes. -/
abbrev Shape := List ℕ

/-- Shape behaviour of nn.Linear(inF, outF) on its last axis. -/
def linShape (inF outF : ℕ) (s : Shape) : Option Shape :=
  if s.getLast? = some inF then some (s.dropLast ++ [outF]) else none

/-- Shape behaviour of a 1x1 nn.Conv2d(cin, cout). -/
def convShape (cin cout : ℕ) (s : Shape) : Option Shape :=
  match s with
  | [bN, c, hh, ww] => if c = cin then some [bN, cout, hh, ww] else none
  | _ => none

/-- Shape behaviour of GroupNorm(32, numc) at forward time: the channel
axis must equal the constructed channel count. -/
def gnShape (numc : ℕ) (s : Shape) : Option Shape :=
  match s with
  | [bN, c, hh, ww] => if c = numc then some [bN, c, hh, ww] else none
  | _ => none

/-- Shape behaviour of CrossAttention called on a [b, n, f] sequence with no
context (context defaults to the input): to_q needs f = query_dim and
to_k/to_v need f = context_dim. -/
def caShapeSelf (qd cd : ℕ) (s : Shape) : Option Shape :=
  match s with
  | [bN, n, f] => if f = qd ∧ f = cd then some [bN, n, qd] else none
  | _ => none

/-- Shape behaviour of CrossAttention with an explicit [b, m, f2] context. -/
def caShapeCross (qd cd : ℕ) (s ctx : Shape) : Option Shape :=
  match s, ctx with
  | [bN, n, f], [bN2, _, f2] =>
      if bN2 = bN ∧ f = qd ∧ f2 = cd then some [bN, n, qd] else none
  | _, _ => none

/-- Shape behaviour of BasicTransformerBlock._forward: attn1 is called with
no context (its context_dim is ctxd when disable_self_attn else dim,
line 381), then attn2 with the given context (or self when none); norms,
feed-forward and residuals preserve the shape. -/
def btbShape (dim ctxd : ℕ) (dsa : Bool) (s : Shape) (ctx : Option Shape) :
    Option Shape :=
  let cd1 := if dsa then ctxd else dim
  match caShapeSelf dim cd1 s with
  | none => none
  | some s1 =>
    match ctx with
    | none => caShapeSelf dim ctxd s1
    | some c => caShapeCross dim ctxd s1 c

/-- The context argument of SpatialTransformer.forward: absent, a single
tensor, or a per-block list. -/
inductive CtxArg where
  | noCtx : CtxArg
  | single : Shape → CtxArg
  | perBlock : List Shape → CtxArg

/-- Lines 503-504: `if not isinstance(context, list): context = [context]`.
An absent context or a single tensor becomes a ONE-element list; a list is
kept as is. -/
def wrapCtx : CtxArg → List (Option Shape)
  | CtxArg.noCtx => [none]
  | CtxArg.single s => [some s]
  | CtxArg.perBlock l => l.map some

/-- Shape behaviour of the loop of lines 513-520: cnt remaining blocks
starting from index i; `context[i]` beyond the end of the wrapped list is an
IndexError, hence none. -/
def stBlocksShape (dim ctxd : ℕ) (dsa : Bool) (ctxs : List (Option Shape)) :
    ℕ → ℕ → Shape → Option Shape
  | _, 0, s => some s
  | i, cnt + 1, s =>
    match ctxs[i]? with
    | none => none
    | some co =>
      match btbShape dim ctxd dsa s co with
      | none => none
      | some s2 => stBlocksShape dim ctxd dsa ctxs (i + 1) cnt s2

/-- Shape behaviour of SpatialTransformer.forward before the block loop
(lines 505-512): GroupNorm(32, c) (whose construction also requires
32 ∣ c), proj_in (convolution before the flatten, or linear after it),
and the flatten to [b, h*w, c']; returns the token shape and the recorded
spatial sizes. -/
def stPre (ul : Bool) (c inner : ℕ) (xs : Shape) : Option (Shape × ℕ × ℕ) :=
  if c % 32 ≠ 0 then none
  else
    match gnShape c xs with
    | none => none
    | some s0 =>
      match (if ul then some s0 else convShape c inner s0) with
      | none => none
      | some s1 =>
        match s1 with
        | [bN, cc, hh, ww] =>
          match (if ul then linShape c inner [bN, hh * ww, cc]
                 else some ([bN, hh * ww, cc] : Shape)) with
          | none => none
          | some t1 => some (t1, hh, ww)
        | _ => none

/-- Shape behaviour of SpatialTransformer.forward after the block loop
(lines 521-526): in linear mode proj_out = nn.Linear(in_channels, inner_dim)
(line 473, dimensions exactly as in the source) applied before the
unflatten; in conv mode the unflatten comes first and then the proj_out
convolution; finally the residual `x + x_in` needs the input shape back. -/
def stPost (ul : Bool) (c inner hh ww : ℕ) (xs t2 : Shape) : Option Shape :=
  match (if ul then linShape c inner t2 else some t2) with
  | none => none
  | some t3 =>
    match t3 with
    | [bN2, tt, ff] =>
      if tt = hh * ww then
        match (if ul then some ([bN2, ff, hh, ww] : Shape)
               else convShape inner c [bN2, ff, hh, ww]) with
        | none => none
        | some s5 => if s5 = xs then some xs else none
      else none
    | _ => none

/-- Shape behaviour of the whole SpatialTransformer.forward
(lines 498-526). -/
def stShapeForward (ul : Bool) (c nh dh depth ctxd : ℕ) (dsa : Bool)
    (ctxArg : CtxArg) (xs : Shape) : Option Shape :=
  match stPre ul c (nh * dh) xs with
  | none => none
  | some (t1, hh, ww) =>
    match stBlocksShape (nh * dh) ctxd dsa (wrapCtx ctxArg) 0 depth t1 with
    | none => none
    | some t2 => stPost ul c (nh * dh) hh ww xs t2

/-! Concrete instances used by counterexamples and witnesses. -/

/-- All-zero 1-head, 1-dim CrossAttention over the paired feature index. -/
def caZ : CAWeights 1 1 (Fin 1 × Fin 1) (Fin 1 × Fin 1) :=
  ⟨fun _ _ _ => 0, fun _ _ _ => 0, fun _ _ _ => 0, fun _ _ _ => 0, fun _ => 0, 1⟩

/-- All-zero feed-forward parameters. -/
def ffZ : FFWeights (Fin 1 × Fin 1) (Fin 1) :=
  ⟨fun _ _ => 0, fun _ => 0, fun _ _ => 0, fun _ => 0, fun _ _ => 0, fun _ => 0⟩

/-- A concrete transformer block with zero projections and unit norm
scales. -/
def btbZ : BTBWeights 1 1 (Fin 1 × Fin 1) (Fin 1) :=
  ⟨caZ, caZ, ffZ, fun _ => 1, fun _ => 0, fun _ => 1, fun _ => 0,
    fun _ => 1, fun _ => 0⟩

/-- A concrete one-block SpatialTransformer whose proj_out convolution is
zero-initialized (as zero_module produces at construction). -/
def stZ : STWeights 1 1 1 1 (Fin 1) :=
  ⟨fun _ => 1, fun _ => 0, fun _ _ => 1, fun _ => 0, [btbZ],
    fun _ _ => 0, fun _ => 0⟩

/-- The constant-3 input grid of shape [1, 1, 1, 1]. -/
def x3c : Fin 1 → Fin 1 × Fin 1 → Fin 1 → Fin 1 → ℚ := fun _ _ _ _ => 3

/-- A 1-head, 1-dim CrossAttention whose projections are all the constant-1
linear map, with zero output bias and scale 1. -/
def W1c : CAWeights 1 1 (Fin 1) (Fin 1) :=
  ⟨fun _ _ _ => 1, fun _ _ _ => 1, fun _ _ _ => 1, fun _ _ _ => 1, fun _ => 0, 1⟩

/-- A 1-head, 1-dim CrossAttention whose query projection is the
constant-2 linear map. -/
def W2c : CAWeights 1 1 (Fin 1) (Fin 1) :=
  ⟨fun _ _ _ => 2, fun _ _ _ => 1, fun _ _ _ => 1, fun _ _ _ => 1, fun _ => 0, 1⟩

/-- The constant-1 input tensor of shape [1, 1, 1]. -/
def x1c : Fin 1 → Fin 1 → Fin 1 → ℚ := fun _ _ _ => 1

/-- The constant-5 injected tensor of shape [heads=1, 1, 1]. -/
def qi5 : Fin 1 → Fin 1 → Fin 1 → ℚ := fun _ _ _ => 5

/-- The constant-1 context tensor of shape [1, 2, 1]. -/
def xc2 : Fin 1 → Fin 2 → Fin 1 → ℚ := fun _ _ _ => 1

/-- A boolean mask of shape [1, 2] keeping key 0 and masking out key 1. -/
def mkc : Fin 1 → Fin 2 → Bool := fun _ j => decide (j = 0)

/-! Theorems. -/

/-- C1: with an injection_config present, the query used for attention is
the batch-replicated injected query times gamma plus the fresh projection
times (1 - gamma), and injected keys (resp. values) are used batch-replicated
in place of the fresh projection, with no blending. -/
theorem injected_qkv_blend_and_replace [Fintype ι] [Fintype κ]
    (W : CAWeights h d ι κ) (x : B → P → ι → ℚ) (c : B → J → κ → ℚ)
    (cfg : InjectionConfig) (qi : Fin h → P → Fin d → ℚ)
    (ki vi : Fin h → J → Fin d → ℚ) :
    ca_q (some cfg) (some qi) W x
        = (fun bh p dd => replicateB qi bh p dd * cfg.gamma
            + freshQ W x bh p dd * (1 - cfg.gamma))
      ∧ ca_k (some ki) W c = (replicateB ki : B × Fin h → J → Fin d → ℚ)
      ∧ ca_v (some vi) W c = (replicateB vi : B × Fin h → J → Fin d → ℚ) :=
  ⟨rfl, rfl, rfl⟩

/-- C2 counterexample: with gamma = 0 the query used is the fresh
projection (here 2), not the injected query (here 5), refuting the claim
that gamma = 0 selects purely the injected Q. -/
theorem gamma_zero_keeps_fresh_counterexample :
    ca_q (some (⟨1, 0⟩ : InjectionConfig)) (some qi5) W2c x1c (0, 0) 0 0 = 2
      ∧ replicateB qi5 ((0 : Fin 1), (0 : Fin 1)) 0 0 = 5
      ∧ ca_q (some (⟨1, 0⟩ : InjectionConfig)) (some qi5) W2c x1c (0, 0) 0 0
          ≠ replicateB qi5 ((0 : Fin 1), (0 : Fin 1)) 0 0 := by
  refine ⟨?_, rfl, ?_⟩ <;>
    simp [ca_q, cfgGamma, replicateB, freshQ, W2c, x1c, qi5]

/-- C2 amended: the roles of the two gamma endpoints are the opposite of
the claim: gamma = 0 reduces the query to purely the fresh projection and
gamma = 1 reduces it to purely the batch-replicated injected query. -/
theorem gamma_endpoints_select_fresh_or_injected [Fintype ι]
    (W : CAWeights h d ι κ) (x : B → P → ι → ℚ)
    (qi : Fin h → P → Fin d → ℚ) (t : ℚ) :
    ca_q (some (⟨t, 0⟩ : InjectionConfig)) (some qi) W x = freshQ W x
      ∧ ca_q (some (⟨t, 1⟩ : InjectionConfig)) (some qi) W x
          = (replicateB qi : B × Fin h → P → Fin d → ℚ) := by
  constructor <;> funext bh p dd <;> simp [ca_q, cfgGamma, replicateB]

/-- C3 counterexample: with only v_injected supplied and T = 2, the
similarity entry stays at its unscaled value 1 while the claim demands the
T-scaled value 2: supplying v_injected alone does not trigger the line-229
scaling. -/
theorem v_injected_alone_not_scaled_counterexample :
    ca_sim W1c (some (⟨2, 0⟩ : InjectionConfig)) none none (some qi5) x1c x1c (0, 0) 0 0 = 1
      ∧ cfgT (some (⟨2, 0⟩ : InjectionConfig))
          * simQK (ca_q (some (⟨2, 0⟩ : InjectionConfig)) none W1c x1c)
              (ca_k none W1c x1c) ((0 : Fin 1), (0 : Fin 1)) 0 0
          * W1c.scale = 2
      ∧ (1 : ℚ) ≠ 2 := by
  refine ⟨?_, ?_, by norm_num⟩ <;>
    simp [ca_sim, ca_q, ca_k, freshQ, freshK, simQK, cfgT, cfgGamma, W1c, x1c]

/-- C3 amended: the raw similarity matrix is multiplied by the scale
injection_config.T exactly when q_injected or k_injected is supplied, and
the multiplication is uniform over every entry; supplying v_injected alone
leaves the similarity at the non-injected value `sim * self.scale`. -/
theorem sim_scaled_iff_q_or_k_injected [Fintype ι] [Fintype κ]
    (W : CAWeights h d ι κ) (cfg : Option InjectionConfig)
    (qI : Option (Fin h → P → Fin d → ℚ))
    (kI vI : Option (Fin h → J → Fin d → ℚ))
    (x : B → P → ι → ℚ) (c : B → J → κ → ℚ) :
    (qI.isSome = true ∨ kI.isSome = true →
        ca_sim W cfg qI kI vI x c
          = fun bh i j =>
              simQK (ca_q cfg qI W x) (ca_k kI W c) bh i j * cfgT cfg * W.scale)
      ∧ ca_sim W cfg none none vI x c
          = fun bh i j =>
              simQK (ca_q cfg none W x) (ca_k none W c) bh i j * W.scale := by
  constructor
  · intro hqk
    have hcond : (qI.isSome || kI.isSome) = true := by
      rcases hqk with h1 | h1 <;> simp [h1]
    funext bh i j
    simp [ca_sim, hcond]
  · funext bh i j
    simp [ca_sim]

/-- C9: with injection_config.T = 1 the similarity matrix, whether or not
the line-229 scaling branch is taken, equals the non-injected-path formula
`sim * self.scale` applied to the same used Q and K: the T-scaling is a
no-op at T = 1. -/
theorem injection_T_one_is_noop [Fintype ι] [Fintype κ]
    (W : CAWeights h d ι κ) (x : B → P → ι → ℚ) (c : B → J → κ → ℚ)
    (g : ℚ) (qI : Option (Fin h → P → Fin d → ℚ))
    (kI vI : Option (Fin h → J → Fin d → ℚ)) :
    ca_sim W (some (⟨1, g⟩ : InjectionConfig)) qI kI vI x c
      = fun bh i j =>
          simQK (ca_q (some (⟨1, g⟩ : InjectionConfig)) qI W x) (ca_k kI W c) bh i j
            * W.scale := by
  funext bh i j
  cases qI <;> cases kI <;> simp [ca_sim, cfgT]

/-- C10: with q_injected supplied but injection_config = None, q_mix
defaults to 0, so the query used is purely the fresh projection and the
whole forward output coincides with the non-injected call: the injected Q
is silently ignored. -/
theorem q_injected_without_config_ignored [Fintype ι] [Fintype κ] [Fintype J]
    (E : ℚ → ℚ) (W : CAWeights h d ι κ) (x : B → P → ι → ℚ)
    (c : B → J → κ → ℚ) (mask : Option (B → J → Bool))
    (qi : Fin h → P → Fin d → ℚ) (kI vI : Option (Fin h → J → Fin d → ℚ)) :
    ca_q none (some qi) W x = freshQ W x
      ∧ ca_forward E W x c mask (some qi) kI vI none
          = ca_forward E W x c mask none kI vI none := by
  have hq : ca_q none (some qi) W x = (freshQ W x : B × Fin h → P → Fin d → ℚ) := by
    funext bh p dd
    simp [ca_q, cfgGamma, replicateB]
  refine ⟨hq, ?_⟩
  have hsim : ca_sim W none (some qi) kI vI x c = ca_sim W none none kI vI x c := by
    funext bh i j
    have h0 : ca_q none (none : Option (Fin h → P → Fin d → ℚ)) W x = freshQ W x := rfl
    cases kI <;> simp [ca_sim, cfgT, hq, h0]
  unfold ca_forward ca_attn
  rw [hsim]

/-- Witness for the amended C3 theorem, instantiated with q injected and
T = 2 at a concrete 1-head, 1-token attention. -/
theorem sim_scaled_iff_q_or_k_injected_witness :
    ca_sim W1c (some (⟨2, 0⟩ : InjectionConfig)) (some qi5) none none x1c x1c
      = fun bh i j =>
          simQK (ca_q (some (⟨2, 0⟩ : InjectionConfig)) (some qi5) W1c x1c)
            (ca_k none W1c x1c) bh i j
            * cfgT (some (⟨2, 0⟩ : InjectionConfig)) * W1c.scale :=
  (sim_scaled_iff_q_or_k_injected W1c (some ⟨2, 0⟩) (some qi5) none none x1c x1c).1
    (Or.inl rfl)

/-- C7: MemoryEfficientCrossAttention.forward given any non-null mask
returns the NotImplementedError outcome, for every fused kernel, weights and
inputs: the mask is never silently ignored and no output is produced. -/
theorem mea_mask_raises [Fintype ι] [Fintype κ]
    (op : (B × Fin h → P → Fin d → ℚ) → (B × Fin h → J → Fin d → ℚ)
      → (B × Fin h → J → Fin d → ℚ) → (B × Fin h → P → Fin d → ℚ))
    (W : MEAWeights h d ι κ) (x : B → P → ι → ℚ) (c : B → J → κ → ℚ)
    (m : B → J → Bool) :
    mea_forward op W x c (some m) = Except.error AttnError.notImplementedError :=
  rfl

/-- C8: in the reference attention with a boolean mask whose every batch row
has at least one true entry, the post-softmax probabilities of every
masked-out key position are 0, and every probability row sums to 1 over the
unmasked entries alone. -/
theorem masked_softmax_zero_and_rowsum [Fintype ι] [Fintype κ] [Fintype J]
    (E : ℚ → ℚ) (hE : ∀ a, 0 < E a) (W : CAWeights h d ι κ)
    (cfg : Option InjectionConfig) (qI : Option (Fin h → P → Fin d → ℚ))
    (kI vI : Option (Fin h → J → Fin d → ℚ))
    (x : B → P → ι → ℚ) (c : B → J → κ → ℚ) (m : B → J → Bool)
    (hm : ∀ b : B, ∃ j : J, m b j = true) :
    (∀ (bh : B × Fin h) (i : P) (j : J), m bh.1 j = false →
        ca_attn E W cfg qI kI vI (some m) x c bh i j = 0)
      ∧ ∀ (bh : B × Fin h) (i : P),
          (∑ j in Finset.univ.filter (fun j : J => m bh.1 j = true),
            ca_attn E W cfg qI kI vI (some m) x c bh i j) = 1 := by
  have hrow : ∀ (bh : B × Fin h) (i : P) (j : J),
      expO E (maskedSim (some m) (ca_sim W cfg qI kI vI x c) bh i j)
        = if m bh.1 j then E (ca_sim W cfg qI kI vI x c bh i j) else 0 := by
    intro bh i j
    by_cases hj : m bh.1 j <;> simp [maskedSim, expO, hj]
  constructor
  · intro bh i j hj
    simp [ca_attn, softmaxRow, maskedSim, hj, expO]
  · intro bh i
    obtain ⟨j0, hj0⟩ := hm bh.1
    have hpos : 0 < ∑ jj : J,
        expO E (maskedSim (some m) (ca_sim W cfg qI kI vI x c) bh i jj) := by
      apply Finset.sum_pos'
      · intro jj _
        rw [hrow]
        by_cases hj : m bh.1 jj <;> simp [hj]
        exact le_of_lt (hE _)
      · exact ⟨j0, Finset.mem_univ _, by rw [hrow]; simp [hj0]; exact hE _⟩
    have hnum : (∑ j in Finset.univ.filter (fun j : J => m bh.1 j = true),
          expO E (maskedSim (some m) (ca_sim W cfg qI kI vI x c) bh i j))
        = ∑ jj : J, expO E (maskedSim (some m) (ca_sim W cfg qI kI vI x c) bh i jj) := by
      apply Finset.sum_subset (Finset.filter_subset _ _)
      intro j _ hjn
      have hj : m bh.1 j = false := by
        simpa using hjn
      rw [hrow]
      simp [hj]
    simp only [ca_attn, softmaxRow]
    rw [← Finset.sum_div, hnum, div_self (ne_of_gt hpos)]

/-- Witness for the C8 theorem at a concrete 2-key attention whose mask
keeps key 0 and drops key 1: key 1 gets probability 0 and the row sums to 1
over the kept keys. -/
theorem masked_softmax_zero_and_rowsum_witness :
    ca_attn (fun _ => 1) W1c none none none none (some mkc) x1c xc2 (0, 0) 0 1 = 0
      ∧ (∑ j in Finset.univ.filter (fun j : Fin 2 => mkc 0 j = true),
          ca_attn (fun _ => 1) W1c none none none none (some mkc) x1c xc2 (0, 0) 0 j) = 1 :=
  ⟨(masked_softmax_zero_and_rowsum (fun _ => 1) (fun _ => one_pos) W1c none none
      none none x1c xc2 mkc (fun _ => ⟨0, rfl⟩)).1 (0, 0) 0 1 rfl,
   (masked_softmax_zero_and_rowsum (fun _ => 1) (fun _ => one_pos) W1c none none
      none none x1c xc2 mkc (fun _ => ⟨0, rfl⟩)).2 (0, 0) 0⟩

/-- Helper: the block loop fails whenever the wrapped context list is
shorter than the number of remaining blocks (the IndexError of
`context[i]`), regardless of the running shape. -/
theorem stBlocksShape_none (dim ctxd : ℕ) (dsa : Bool)
    (ctxs : List (Option Shape)) :
    ∀ (cnt i : ℕ) (s : Shape), 0 < cnt → ctxs.length < i + cnt →
      stBlocksShape dim ctxd dsa ctxs i cnt s = none := by
  intro cnt
  induction cnt with
  | zero => intro i s h0 _; exact absurd h0 (lt_irrefl 0)
  | succ c2 ih =>
    intro i s _ hlen
    cases hget : ctxs[i]? with
    | none => simp [stBlocksShape, hget]
    | some co =>
      have hi : i < ctxs.length := by
        by_contra hge
        have hnone : ctxs[i]? = none := List.getElem?_eq_none (by omega)
        simp [hnone] at hget
      cases c2 with
      | zero => exact absurd hi (by omega)
      | succ c3 =>
        simp only [stBlocksShape, hget]
        cases hbtb : btbShape dim ctxd dsa s co with
        | none => rfl
        | some s2 => exact ih (i + 1) s2 (Nat.succ_pos _) (by omega)

/-- Helper: the value-level block loop succeeds when the wrapped context
list covers all remaining blocks. -/
theorem stLoop_isSome {hh ww : ℕ} {φ : Type} [Fintype φ] (E gelu r : ℚ → ℚ)
    (dsa : Bool) (qI kI vI : Option (Fin h → Fin hh × Fin ww → Fin d → ℚ))
    (cfg : Option InjectionConfig)
    (ctxs : List (Option (B → Fin hh × Fin ww → Fin h × Fin d → ℚ))) :
    ∀ (blks : List (BTBWeights h d (Fin h × Fin d) φ)) (i : ℕ)
      (t : B → Fin hh × Fin ww → Fin h × Fin d → ℚ),
      i + blks.length ≤ ctxs.length →
      ∃ t2, stLoop E gelu r dsa qI kI vI cfg ctxs i blks t = some t2 := by
  intro blks
  induction blks with
  | nil => intro i t _; exact ⟨t, rfl⟩
  | cons blk rest ih =>
    intro i t hle
    cases hget : ctxs[i]? with
    | none =>
      have := List.getElem?_eq_none_iff.mp hget
      simp only [List.length_cons] at hle
      omega
    | some co =>
      simp only [stLoop, hget]
      exact ih (i + 1) _ (by simp only [List.length_cons] at hle; omega)

/-- C4 (code-bug evidence): the active BasicTransformerBlock._forward never
reads disable_self_attn — its output is identical with the flag set or
cleared, for every context and injection — because line 413 calls attn1
without any context, so attn1 always self-attends over its own normalized
input instead of receiving the external context when the flag is set. -/
theorem btb_disable_self_attn_no_effect [Fintype ι] [Fintype φ] [Fintype P]
    (E gelu r : ℚ → ℚ) (Wb : BTBWeights h d ι φ) (x : B → P → ι → ℚ)
    (ctx : Option (B → P → ι → ℚ))
    (qI kI vI : Option (Fin h → P → Fin d → ℚ))
    (cfg : Option InjectionConfig) :
    btb_forward E gelu r Wb true x ctx qI kI vI cfg
      = btb_forward E gelu r Wb false x ctx qI kI vI cfg := rfl

/-- C5 (code-bug evidence): with the proj_out projection zero-initialized
(as zero_module leaves it at construction) and the context list covering the
blocks, the conv-mode SpatialTransformer.forward is the identity on its
input, as the spec intends; but in use_linear mode proj_out is built as
nn.Linear(in_channels, inner_dim) with its dimensions swapped (line 473), so
for in_channels = 32, n_heads = 1, d_head = 8 (inner_dim = 8) the forward
call fails on a shape mismatch instead of returning x. -/
theorem st_zero_projout_identity_and_linear_bug {g cpg hh ww : ℕ}
    {φ : Type} [Fintype φ] (E gelu r : ℚ → ℚ) (S : STWeights g cpg h d φ)
    (dsa : Bool) (qI kI vI : Option (Fin h → Fin hh × Fin ww → Fin d → ℚ))
    (cfg : Option InjectionConfig)
    (ctxs : List (Option (B → Fin hh × Fin ww → Fin h × Fin d → ℚ)))
    (x : B → Fin g × Fin cpg → Fin hh → Fin ww → ℚ)
    (hW : S.WpOut = fun _ _ => 0) (hb : S.bpOut = fun _ => 0)
    (hlen : S.blocks.length ≤ ctxs.length) :
    stConvForward E gelu r S dsa qI kI vI cfg ctxs x = some x
      ∧ stShapeForward true 32 1 8 1 8 false CtxArg.noCtx [1, 32, 2, 2] = none := by
  constructor
  · obtain ⟨t2, ht2⟩ := stLoop_isSome E gelu r dsa qI kI vI cfg ctxs S.blocks 0
      (stTokens r S x) (by omega)
    simp only [stConvForward, ht2]
    refine congrArg some ?_
    funext bb cc ii jj
    simp [hW, hb]
  · rfl

/-- Witness for the C5 theorem at a concrete one-block conv-mode
SpatialTransformer with zero-initialized proj_out. -/
theorem st_zero_projout_identity_and_linear_bug_witness :
    stConvForward (fun a => a) (fun a => a) (fun a => a) stZ false none none none
        none [none] x3c = some x3c
      ∧ stShapeForward true 32 1 8 1 8 false CtxArg.noCtx [1, 32, 2, 2] = none :=
  st_zero_projout_identity_and_linear_bug (fun a => a) (fun a => a) (fun a => a)
    stZ false none none none none [none] x3c rfl rfl (by decide)

/-- C6 counterexample: a depth-2 SpatialTransformer given a single (non-list)
context fails (the loop indexes context[1] into the one-element wrapped
list), refuting the claim that a single context is broadcast to all blocks
and that the call succeeds for every depth >= 1. -/
theorem st_single_context_depth2_counterexample :
    stShapeForward false 32 1 8 2 8 false (CtxArg.single [1, 5, 8]) [1, 32, 2, 2]
      = none := by decide

/-- C6 amended: a single non-list context is wrapped into the one-element
list [context], which block 0 consumes; the forward call then succeeds only
at depth 1 (shown by the depth-1 run below) — for every depth >= 2 the
per-block indexing context[i] fails with an IndexError instead of
broadcasting the context to all blocks. -/
theorem st_single_context_wrap_and_depth_limit :
    (∀ s : Shape, wrapCtx (CtxArg.single s) = [some s])
      ∧ (∀ (s : Shape) (ul : Bool) (c nh dh ctxd depth : ℕ) (dsa : Bool)
          (xs : Shape), 2 ≤ depth →
          stShapeForward ul c nh dh depth ctxd dsa (CtxArg.single s) xs = none)
      ∧ stShapeForward false 32 1 8 1 8 false (CtxArg.single [1, 5, 8]) [1, 32, 2, 2]
          = some [1, 32, 2, 2] := by
  refine ⟨fun s => rfl, ?_, by decide⟩
  intro s ul c nh dh ctxd depth dsa xs h2
  have hloop : ∀ t : Shape,
      stBlocksShape (nh * dh) ctxd dsa (wrapCtx (CtxArg.single s)) 0 depth t
        = none := by
    intro t
    apply stBlocksShape_none (nh * dh) ctxd dsa (wrapCtx (CtxArg.single s))
      depth 0 t (by omega)
    simp [wrapCtx]
    omega
  rcases hpre : stPre ul c (nh * dh) xs with _ | ⟨t1, hh2, ww2⟩
  · simp [stShapeForward, hpre]
  · simp [stShapeForward, hpre, hloop]

/-- Witness for the amended C6 theorem at depth 3. -/
theorem st_single_context_wrap_and_depth_limit_witness :
    stShapeForward false 32 1 8 3 8 false (CtxArg.single [1, 5, 8]) [1, 32, 2, 2]
      = none :=
  st_single_context_wrap_and_depth_limit.2.1 [1, 5, 8] false 32 1 8 8 3 false
    [1, 32, 2, 2] (by decide)

end StyleID
